import Mathlib

/-!
Shallow embedding of the price-monitoring pipeline of the repository
`monitoramento_pricing` (files `scraper_core.py` and `atualizador.py`),
together with theorems settling the frozen claims about it.

Network calls are modelled by an explicit `Oracle` (the proxy term-search
endpoint and the single-product detail endpoint); every request issued by
the embedded code is additionally recorded in a `Req` trace so that
ordering properties ("bulk search happens before individual search") can
be stated.  Python floats are modelled by `ℚ`; Python `round(x, 2)` by
`round2`; Python truthiness of optional strings / numbers by explicit
`truthyStr` / `truthyNum` helpers; absent dictionary keys and JSON `null`
are both modelled by `none`.
-/

namespace Pricing

/-- Python `round(x, 2)` (two decimal places), on rationals. -/
def round2 (q : ℚ) : ℚ := (round (q * 100) : ℤ) / 100

/-- Python `a or b` on two optional numbers: the first operand is taken
when it is truthy (present and nonzero), otherwise the second is taken
as-is.  Models expressions such as `oferta.get('price') or
oferta.get('Price')` in `extrair_preco_e_nome`. -/
def pyOr (a b : Option ℚ) : Option ℚ :=
  match a with
  | some x => if x = 0 then b else some x
  | none => b

/-- Python truthiness of an optional string (`None` and `""` are falsy). -/
def truthyStr : Option String → Bool
  | some s => if s = "" then false else true
  | none => false

/-- Python truthiness of an optional number (`None` and `0` are falsy). -/
def truthyNum : Option ℚ → Bool
  | some q => if q = 0 then false else true
  | none => false

/-- A commercial offer (`commertialOffer` object): the four price fields
read by `extrair_preco_e_nome` (`price`/`Price`/`listPrice`/`ListPrice`). -/
structure Oferta where
  price : Option ℚ
  Price : Option ℚ
  listPrice : Option ℚ
  ListPrice : Option ℚ
deriving DecidableEq

/-- A seller entry; `none` models an absent or empty `commertialOffer`. -/
structure Seller where
  commertialOffer : Option Oferta
deriving DecidableEq

/-- A SKU sub-item of a catalog product: its `ean` field, the list of
`referenceId[i]['Value']` entries, the list of `images[i]['imageUrl']`
entries (`none` for a missing url), and its sellers. -/
structure Item where
  ean : Option String
  referenceId : List (Option String)
  images : List (Option String)
  sellers : List Seller
deriving DecidableEq

/-- A catalog product record (both the summary shape returned by the
proxy search and the enriched shape returned by the detail endpoint). -/
structure Product where
  productId : Option String
  productName : Option String
  name : Option String
  items : List Item
deriving DecidableEq

/-- One entry of the list returned by `scrape_by_eans`: either a
not-found marker carrying the searched code, or a product record carrying
its `target_name` context label. -/
inductive Resultado where
  | notFound (ean : String)
  | found (p : Product) (target_name : String)
deriving DecidableEq

/-- A network request issued by the embedded scraper, for trace-based
ordering statements: a bulk term search for a batch, an individual term
search for one code, or a product-detail lookup. -/
inductive Req where
  | bulk (batch : List String)
  | individual (code : String)
  | detail (pid : Option String)
deriving DecidableEq

/-- The two upstream endpoints used by `scrape_by_eans`, as oracles:
`proxy term` models `fazer_requisicao_api_proxy(term, page=1)` and
`detail pid` models `fetch_product_details(pid)`; `none` models a
transport or decode failure ("no data"). -/
structure Oracle where
  proxy : String → Option (List Product)
  detail : Option String → Option Product

/-- `", ".join(batch)`: the search term of one bulk request. -/
def joinComma (batch : List String) : String := String.intercalate ", " batch

/-- `BATCH_SIZE = 48` in `process_eans_in_batch`. -/
def BATCH_SIZE : Nat := 48

/-- `[eans[i:i+BATCH_SIZE] for i in range(0, len(eans), BATCH_SIZE)]`:
the i-th slice is `(l.drop (48*i)).take 48` and there are
`ceil(len/48) = (len + 47) / 48` slices. -/
def chunksOf (l : List String) : List (List String) :=
  (List.range ((l.length + (BATCH_SIZE - 1)) / BATCH_SIZE)).map
    (fun i => (l.drop (BATCH_SIZE * i)).take BATCH_SIZE)

/-- Is the needle a prefix of the haystack (as character lists)? -/
def charsStartWith : List Char → List Char → Bool
  | [], _ => true
  | _ :: _, [] => false
  | a :: as, b :: bs => a = b && charsStartWith as bs

/-- Does the haystack contain the needle at some position? -/
def charsContain (needle : List Char) : List Char → Bool
  | [] => charsStartWith needle []
  | b :: bs => charsStartWith needle (b :: bs) || charsContain needle bs

/-- Python `needle in hay` on strings (substring test). -/
def strContains (hay needle : String) : Bool :=
  charsContain needle.toList hay.toList

/-- `fetch_product_details`: one detail lookup, returning the record (or
`none` on transport/decode failure) and the request it issued. -/
def fetch_product_details (o : Oracle) (pid : Option String) :
    Option Product × List Req :=
  (o.detail pid, [Req.detail pid])

/-- One iteration of the loop of `enrich_product_summaries`: a summary
without a truthy `productId` is skipped (`continue`); otherwise the detail
lookup runs and, on success, the detailed record is appended with the
`target_name` context label. -/
def enrich_step (o : Oracle) (target_name : String)
    (acc : List Resultado × List Req) (s : Product) :
    List Resultado × List Req :=
  if truthyStr s.productId then
    let d := fetch_product_details o s.productId
    match d.1 with
    | some dp => (acc.1 ++ [Resultado.found dp target_name], acc.2 ++ d.2)
    | none => (acc.1, acc.2 ++ d.2)
  else acc

/-- `enrich_product_summaries(product_summaries, target_name)`. -/
def enrich_product_summaries (o : Oracle) (summaries : List Product)
    (target_name : String) : List Resultado × List Req :=
  summaries.foldl (enrich_step o target_name) ([], [])

/-- The mutable `found_products_map` dictionary of
`process_eans_in_batch`. -/
def StrMap : Type := String → Option Product

/-- Python dictionary assignment `m[k] = v`. -/
def mapInsert (m : StrMap) (k : String) (v : Product) : StrMap :=
  fun x => if x = k then some v else m x

/-- Strategy 2 of the batch matcher: when the sub-item's `ean` field is
falsy, scan its image urls for any batch code as a substring, inserting
`code ↦ product` only when the code is not mapped yet. -/
def scan_strategy2 (batch : List String) (p : Product) (it : Item)
    (m : StrMap) : StrMap :=
  let image_urls := it.images.map (fun im => im.getD "")
  image_urls.foldl
    (fun m url =>
      batch.foldl
        (fun m e =>
          if strContains url e then
            match m e with
            | some _ => m
            | none => mapInsert m e p
          else m)
        m)
    m

/-- The body of the double loop of `process_eans_in_batch` that builds
`found_products_map`: strategy 1 maps a truthy sub-item `ean` that belongs
to the batch directly to the product (then `continue`s); strategy 2 runs
only when the `ean` field is falsy. -/
def scan_item (batch : List String) (p : Product) (m : StrMap)
    (it : Item) : StrMap :=
  match it.ean with
  | some e =>
    if e = "" then scan_strategy2 batch p it m
    else if e ∈ batch then mapInsert m e p
    else m
  | none => scan_strategy2 batch p it m

/-- `found_products_map` for one batch and one bulk-response page. -/
def build_found_map (batch : List String) (page : List Product) : StrMap :=
  page.foldl (fun m p => p.items.foldl (scan_item batch p) m) (fun _ => none)

/-- Accumulator of the per-EAN loop of `process_eans_in_batch`:
the `results` gathered so far, `eans_not_found_in_batch`, and the trace
of detail requests issued so far. -/
structure BatchAcc where
  results : List Resultado
  nf : List String
  trace : List Req
deriving DecidableEq

/-- One iteration of the per-EAN loop of `process_eans_in_batch`: a mapped
summary with a truthy `productId` is enriched (and kept as a summary with
the context label when enrichment returns nothing); a mapped summary
without an id, or an unmapped EAN, goes to `eans_not_found_in_batch`. -/
def batch_step (o : Oracle) (m : StrMap) (acc : BatchAcc) (ean : String) :
    BatchAcc :=
  match m ean with
  | some ps =>
    if truthyStr ps.productId then
      let e := enrich_product_summaries o [ps] ("Busca EAN: " ++ ean)
      if e.1 = [] then
        { acc with
          results := acc.results ++ [Resultado.found ps ("Busca EAN: " ++ ean)],
          trace := acc.trace ++ e.2 }
      else
        { acc with results := acc.results ++ e.1, trace := acc.trace ++ e.2 }
    else { acc with nf := acc.nf ++ [ean] }
  | none => { acc with nf := acc.nf ++ [ean] }

/-- The heuristic of `process_short_codes_individually` for one candidate
sub-item: exact `ean` match, first `referenceId` value match, or
image-url substring fallback. -/
def item_matches_code (code : String) (it : Item) : Bool :=
  (it.ean == some code)
  || (match it.referenceId with
      | v :: _ => v == some code
      | [] => false)
  || (it.images.map (fun im => im.getD "")).any
      (fun url => strContains url code)

/-- The body of the loop of `process_short_codes_individually` for one
code: an individual term search, then the first candidate product with a
matching sub-item, then a detail lookup; a transport failure, no matching
candidate, or a failed detail lookup each yield a not-found marker. -/
def process_one_short (o : Oracle) (code : String) :
    List Resultado × List Req :=
  match o.proxy code with
  | none => ([Resultado.notFound code], [Req.individual code])
  | some page =>
    match page.find? (fun p => p.items.any (item_matches_code code)) with
    | none => ([Resultado.notFound code], [Req.individual code])
    | some p =>
      let d := fetch_product_details o p.productId
      match d.1 with
      | some dp =>
        ([Resultado.found dp ("Busca Código: " ++ code)],
         Req.individual code :: d.2)
      | none => ([Resultado.notFound code], Req.individual code :: d.2)

/-- `process_short_codes_individually(short_codes)`: the loop appends the
per-code results and requests in order. -/
def process_short_codes_individually (o : Oracle) (codes : List String) :
    List Resultado × List Req :=
  ((codes.map (fun c => (process_one_short o c).1)).flatten,
   (codes.map (fun c => (process_one_short o c).2)).flatten)

/-- One iteration of the batch loop of `process_eans_in_batch`: the bulk
request for the comma-joined batch; on failure every code of the batch is
marked not-found and nothing else happens for this batch; on success the
found-map is built, each EAN of the batch is handled, and the EANs left in
`eans_not_found_in_batch` are retried individually. -/
def process_one_batch (o : Oracle) (batch : List String) :
    List Resultado × List Req :=
  match o.proxy (joinComma batch) with
  | none => (batch.map Resultado.notFound, [Req.bulk batch])
  | some page =>
    let m := build_found_map batch page
    let acc := batch.foldl (batch_step o m) ⟨[], [], []⟩
    let ind := process_short_codes_individually o acc.nf
    (acc.results ++ ind.1, Req.bulk batch :: (acc.trace ++ ind.2))

/-- `process_eans_in_batch(eans)`: the loop over the 48-sized chunks
appends each chunk's results and requests in order. -/
def process_eans_in_batch (o : Oracle) (eans : List String) :
    List Resultado × List Req :=
  (((chunksOf eans).map (fun b => (process_one_batch o b).1)).flatten,
   ((chunksOf eans).map (fun b => (process_one_batch o b).2)).flatten)

/-- `scrape_by_eans(eans)`: partitions the input into `valid_eans`
(length exactly 13, processed in batches first) and `short_codes`
(length strictly below 13, processed individually afterwards). -/
def scrape_by_eans (o : Oracle) (eans : List String) :
    List Resultado × List Req :=
  let valid_eans := eans.filter (fun e => e.length = 13)
  let short_codes := eans.filter (fun e => e.length < 13)
  let b := process_eans_in_batch o valid_eans
  let s := process_short_codes_individually o short_codes
  (b.1 ++ s.1, b.2 ++ s.2)

/-- One history entry of a product: its timestamp and price. -/
structure PricePoint where
  data : String
  preco : ℚ
deriving DecidableEq

/-- One tracked product of `produtos.json`, with the fields read and
written by `atualizador.py`. -/
structure Produto where
  ean : String
  nome : Option String
  preco_atual : Option ℚ
  preco_anterior : Option ℚ
  variacao : Option ℚ
  status : String
  ultima_verificacao : Option String
  historico : List PricePoint
deriving DecidableEq

/-- `nome = resultado.get('name') or resultado.get('productName', '')`. -/
def extrair_nome (p : Product) : String :=
  match p.name with
  | some s => if s = "" then p.productName.getD "" else s
  | none => p.productName.getD ""

/-- `extrair_preco_e_nome(resultado)`: not-found markers yield
`(None, None)`; otherwise the name is read, the first item's first
seller's offer is descended into (missing levels yield `(None, nome)`),
the price cascade `price or Price`, falling back to
`listPrice or ListPrice` when that value is `None` or `0`, is applied,
and a strictly positive price is returned rounded to 2 places. -/
def extrair_preco_e_nome : Resultado → Option ℚ × Option String
  | Resultado.notFound _ => (none, none)
  | Resultado.found p _ =>
    let nome := extrair_nome p
    match p.items with
    | [] => (none, some nome)
    | it :: _ =>
      match it.sellers with
      | [] => (none, some nome)
      | sl :: _ =>
        match sl.commertialOffer with
        | none => (none, some nome)
        | some of =>
          let preco1 := pyOr of.price of.Price
          let preco2 :=
            if preco1 = none ∨ preco1 = some 0 then
              pyOr of.listPrice of.ListPrice
            else preco1
          match preco2 with
          | some q =>
            if 0 < q then (some (round2 q), some nome) else (none, some nome)
          | none => (none, some nome)

/-- `calcular_variacao(preco_atual, preco_anterior)`. -/
def calcular_variacao (preco_atual : ℚ) (preco_anterior : Option ℚ) : ℚ :=
  match preco_anterior with
  | none => 0
  | some a => if a = 0 then 0 else round2 ((preco_atual - a) / a * 100)

/-- `MAX_HISTORICO = 30` in `atualizador.py`. -/
def MAX_HISTORICO : Nat := 30

/-- `adicionar_ao_historico(produto, preco)` on the history list: append
the new point, then keep only the last `MAX_HISTORICO` entries
(Python `historico[-MAX_HISTORICO:]`). -/
def adicionar_ao_historico (historico : List PricePoint)
    (ponto : PricePoint) : List PricePoint :=
  let h := historico ++ [ponto]
  if h.length > MAX_HISTORICO then h.drop (h.length - MAX_HISTORICO) else h

/-- `resultado.get('is_not_found')` truthiness. -/
def resIsNotFound : Resultado → Bool
  | Resultado.notFound _ => true
  | Resultado.found _ _ => false

/-- The first truthy `item['ean']` of a result's item list (the loop with
`break` that builds `resultados_por_ean`). -/
def firstItemEan : List Item → Option String
  | [] => none
  | it :: rest =>
    match it.ean with
    | some e => if e = "" then firstItemEan rest else some e
    | none => firstItemEan rest

/-- The key under which `atualizar_produtos` files one resolver result in
`resultados_por_ean`: the marker's own `ean` for not-found markers,
otherwise the first truthy sub-item `ean`; `none` when the result is
filed under no key. -/
def chave_resultado : Resultado → Option String
  | Resultado.notFound e => if e = "" then none else some e
  | Resultado.found p _ => firstItemEan p.items

/-- Filing one result into the `resultados_por_ean` dictionary (Python
`resultados_por_ean[ean_resultado] = resultado`, guarded by the key's
truthiness). -/
def rpe_step (m : String → Option Resultado) (r : Resultado) :
    String → Option Resultado :=
  match chave_resultado r with
  | some k => fun x => if x = k then some r else m x
  | none => m

/-- The `resultados_por_ean` dictionary: results are filed in order, a
later result overwriting an earlier one under the same key. -/
def resultados_por_ean (rs : List Resultado) : String → Option Resultado :=
  rs.foldl rpe_step (fun _ => none)

/-- The body of the per-product loop of `atualizar_produtos`: lookup by
the product's `ean`; a missing or not-found result marks the product
`Não Encontrado`; otherwise price and name are extracted, a truthy name
is stored, a truthy price updates the prices, history, status and
variation (undefined on the first observation), and a failed extraction
marks the product `Erro`. -/
def atualizar_um_produto (rpe : String → Option Resultado) (now : String)
    (p : Produto) : Produto :=
  match rpe p.ean with
  | none => { p with status := "Não Encontrado", ultima_verificacao := some now }
  | some r =>
    if resIsNotFound r then
      { p with status := "Não Encontrado", ultima_verificacao := some now }
    else
      let en := extrair_preco_e_nome r
      let p1 := if truthyStr en.2 then { p with nome := en.2 } else p
      match en.1 with
      | some np =>
        if np = 0 then
          { p1 with status := "Erro", ultima_verificacao := some now }
        else
          let preco_anterior := p1.preco_atual
          let p2 :=
            { p1 with
              preco_anterior := preco_anterior,
              preco_atual := some np,
              ultima_verificacao := some now,
              status := "Monitorando",
              historico := adicionar_ao_historico p1.historico ⟨now, np⟩ }
          if truthyNum preco_anterior then
            { p2 with variacao := some (calcular_variacao np preco_anterior) }
          else
            { p2 with variacao := none }
      | none => { p1 with status := "Erro", ultima_verificacao := some now }

/-- The per-product update pass of `atualizar_produtos` on the whole
product list, given the resolver's results. -/
def atualizar_produtos_core (produtos : List Produto)
    (resultados : List Resultado) (now : String) : List Produto :=
  produtos.map (atualizar_um_produto (resultados_por_ean resultados) now)

/-- `atualizar_produtos()`: the saved product list, given the outcome of
invoking the resolver (`none` models `scrape_by_eans` raising, in which
case every product is stamped `Erro` with the current time and saved). -/
def atualizar_produtos (produtos : List Produto)
    (outcome : Option (List Resultado)) (now : String) : List Produto :=
  match outcome with
  | none =>
    produtos.map
      (fun p => { p with status := "Erro", ultima_verificacao := some now })
  | some rs => atualizar_produtos_core produtos rs now

/-- The price cascade of the spec (§4.4), written from its words: read
the price from `price` then `Price`; if that value is zero or absent,
fall back to `listPrice` then `ListPrice`; the result is returned rounded
to 2 places only when strictly positive. -/
def spec_extract_price (of : Oferta) : Option ℚ :=
  let primary := pyOr of.price of.Price
  let chosen :=
    if primary = none ∨ primary = some 0 then pyOr of.listPrice of.ListPrice
    else primary
  match chosen with
  | some q => if 0 < q then some (round2 q) else none
  | none => none

/-- An oracle on which every request fails at the transport level. -/
def oracleFail : Oracle := ⟨fun _ => none, fun _ => none⟩

/-- An oracle whose term search always succeeds with an empty page and
whose detail lookup fails. -/
def oracleEmpty : Oracle := ⟨fun _ => some [], fun _ => none⟩

/-- A catalog summary whose single sub-item carries EAN `"55"` and whose
`productId` is present, used to exercise the individual-search path. -/
def prodC3 : Product :=
  ⟨some "42", some "Produto 55", none, [⟨some "55", [], [], []⟩]⟩

/-- An oracle that returns `prodC3` for every term search and fails every
detail lookup. -/
def oracleC3 : Oracle := ⟨fun _ => some [prodC3], fun _ => none⟩

/-- A catalog summary whose single sub-item carries the full EAN
`"1234567890123"`, with a present `productId`. -/
def prodB : Product :=
  ⟨some "9", some "Produto Lote", none, [⟨some "1234567890123", [], [], []⟩]⟩

/-- An oracle that returns `prodB` for every term search and fails every
detail lookup, used to exercise the batch enrichment-failure path. -/
def oracleB : Oracle := ⟨fun _ => some [prodB], fun _ => none⟩

/-- An enriched record whose sub-items all lack an `ean` field (as a
match obtained via the image-URL fallback would): joining back by item
EAN cannot find it. -/
def prodC4 : Product :=
  ⟨some "7", some "Sem EAN", none, [⟨none, [], [some "img/777.jpg"], []⟩]⟩

/-- A record with a well-formed offer (price 10), for witnesses of the
update path. -/
def prodC6 : Product :=
  ⟨some "5", none, some "Dipirona",
   [⟨some "111", [], [], [⟨some ⟨some 10, none, none, none⟩⟩]⟩]⟩

/-- A tracked product that has never had a price stored. -/
def produtoNovo : Produto :=
  ⟨"111", none, none, none, none, "Pendente", none, []⟩

/-- A tracked product whose EAN no resolver result joins to. -/
def produtoC4 : Produto :=
  ⟨"777", none, some 5, none, none, "Monitorando", none, []⟩

/-- An offer with `price = 0` and `listPrice = 15.90`. -/
def ofertaC7 : Oferta := ⟨some 0, none, some (159 / 10), none⟩

/-- A found record around `ofertaC7`. -/
def prodC7 : Product :=
  ⟨some "3", some "Oferta Lista", none, [⟨some "222", [], [], [⟨some ofertaC7⟩]⟩]⟩

/-! ### Helper lemmas -/

/-- A history list never has more than one truthy first-item EAN outcome:
if every sub-item's `ean` is falsy, the join key derived from the item
list is `none`. -/
theorem firstItemEan_eq_none (items : List Item)
    (h : ∀ it ∈ items, truthyStr it.ean = false) :
    firstItemEan items = none := by
  induction items with
  | nil => rfl
  | cons it rest ih =>
    have hit := h it (List.mem_cons_self it rest)
    have hrest : ∀ i ∈ rest, truthyStr i.ean = false :=
      fun i hi => h i (List.mem_cons_of_mem it hi)
    cases he : it.ean with
    | none => simpa [firstItemEan, he] using ih hrest
    | some e =>
      rw [he] at hit
      by_cases hee : e = ""
      · simpa [firstItemEan, he, hee] using ih hrest
      · simp [truthyStr, hee] at hit

/-- If no result of the list is filed under key `k`, the lookup of `k`
in `resultados_por_ean` misses, whatever dictionary it starts from. -/
theorem rpe_foldl_none (rs : List Resultado) (k : String) :
    ∀ (m : String → Option Resultado), m k = none →
    (∀ r' ∈ rs, chave_resultado r' ≠ some k) →
    rs.foldl rpe_step m k = none := by
  induction rs with
  | nil => intro m hm _; simpa using hm
  | cons r rest ih =>
    intro m hm h
    have hr := h r (List.mem_cons_self r rest)
    have hrest : ∀ r' ∈ rest, chave_resultado r' ≠ some k :=
      fun r' hr' => h r' (List.mem_cons_of_mem r hr')
    refine ih (rpe_step m r) ?_ hrest
    unfold rpe_step
    cases hc : chave_resultado r with
    | none => simpa using hm
    | some k' =>
      have : k ≠ k' := by
        intro hkk; exact hr (by rw [hc, hkk])
      simp [this, hm]

/-- `resultados_por_ean` misses every key no result is filed under. -/
theorem resultados_por_ean_none (rs : List Resultado) (k : String)
    (h : ∀ r' ∈ rs, chave_resultado r' ≠ some k) :
    resultados_por_ean rs k = none :=
  rpe_foldl_none rs k (fun _ => none) rfl h

/-! ### Claims about the diffing, extraction, history and error stamping -/

/-- Claim C2, counterexample: for a previous price of 100.00 and a new
price of 110.00 the code computes a variation of 10.0, not the 11.0 the
claim asserts. -/
theorem c2_counterexample :
    calcular_variacao 110 (some 100) = 10 ∧
    calcular_variacao 110 (some 100) ≠ 11 := by
  have h10 : calcular_variacao 110 (some 100) = 10 := by
    norm_num [calcular_variacao, round2]
  exact ⟨h10, by rw [h10]; norm_num⟩

/-- Claim C2 (amended): when a prior price exists and is nonzero the
variation equals `round(((new - old) / old) * 100, 2)`; for prices
100.00 → 110.00 the variation is 10.0 (not 11.0), and for
100.00 → 90.00 it is -10.0. -/
theorem c2_variacao (novo old : ℚ) (h : old ≠ 0) :
    calcular_variacao novo (some old) = round2 ((novo - old) / old * 100) ∧
    calcular_variacao 110 (some 100) = 10 ∧
    calcular_variacao 90 (some 100) = -10 := by
  refine ⟨?_, by norm_num [calcular_variacao, round2],
    by norm_num [calcular_variacao, round2, round_eq]⟩
  simp [calcular_variacao, h]

/-- Witness for C2: the amended formula evaluated at 110 over a prior
price of 100. -/
theorem c2_witness :
    calcular_variacao 110 (some 100) = round2 ((110 - 100) / 100 * 100) :=
  (c2_variacao 110 100 (by norm_num)).1

/-- Claim C10: extraction applied to a record marked `is_not_found`
returns `(None, None)`; the embedded function is total, so no exception
can be raised. -/
theorem c10_unresolved_extrai_nulos (e : String) :
    extrair_preco_e_nome (Resultado.notFound e) = (none, none) := rfl

/-- Claim C8: appending to the history always appends the point at the
end, drops from the front until the length is exactly `MAX_HISTORICO`
when it would exceed it (preserving the order of the kept suffix), and
the resulting length is `min (n + 1) MAX_HISTORICO`, hence never exceeds
30; no deduplication happens (the new point is always the last entry). -/
theorem c8_historico (h : List PricePoint) (pt : PricePoint) :
    adicionar_ao_historico h pt =
      (h ++ [pt]).drop ((h.length + 1) - MAX_HISTORICO) ∧
    (adicionar_ao_historico h pt).length = min (h.length + 1) MAX_HISTORICO ∧
    (adicionar_ao_historico h pt).getLast? = some pt := by
  have hlen : (h ++ [pt]).length = h.length + 1 := by simp
  unfold adicionar_ao_historico
  by_cases hc : (h ++ [pt]).length > MAX_HISTORICO
  · have hk : (h.length + 1) - MAX_HISTORICO ≤ h.length := by
      unfold MAX_HISTORICO at *; omega
    rw [if_pos hc, hlen]
    refine ⟨rfl, ?_, ?_⟩
    · rw [List.length_drop, hlen]; unfold MAX_HISTORICO at *; omega
    · rw [List.drop_append_of_le_length hk, List.getLast?_concat]
  · rw [if_neg hc, hlen] at *
    have hz : (h.length + 1) - MAX_HISTORICO = 0 := by
      unfold MAX_HISTORICO at *; omega
    rw [hz]
    refine ⟨by simp, ?_, List.getLast?_concat _⟩
    rw [hlen]; unfold MAX_HISTORICO at *; omega

/-- Claim C9: when invoking the resolver raises, every tracked product of
the saved list is stamped status `Erro` with the current timestamp, and
its `ean`, name, prices, variation and history are left untouched. -/
theorem c9_falha_fatal (produtos : List Produto) (now : String) :
    List.Forall₂
      (fun q p => q.status = "Erro" ∧ q.ultima_verificacao = some now ∧
        q.ean = p.ean ∧ q.nome = p.nome ∧ q.preco_atual = p.preco_atual ∧
        q.preco_anterior = p.preco_anterior ∧ q.variacao = p.variacao ∧
        q.historico = p.historico)
      (atualizar_produtos produtos none now) produtos := by
  unfold atualizar_produtos
  induction produtos with
  | nil => exact List.Forall₂.nil
  | cons p rest ih => exact List.Forall₂.cons (by simp) ih

/-- Claim C7: on a record whose first item's first seller carries a
commercial offer, the extracted price follows the spec's cascade (read
`price` then `Price`; on zero or absent fall back to `listPrice` then
`ListPrice`; return the 2-place rounding only when strictly positive) and
the name slot is the extracted name, not null; in particular an offer
with `price = 0` and `listPrice = 15.90` yields 15.90. -/
theorem c7_cascata_precos (p : Product) (tn : String) (it : Item)
    (sl : Seller) (of : Oferta)
    (h1 : p.items.head? = some it)
    (h2 : it.sellers.head? = some sl)
    (h3 : sl.commertialOffer = some of) :
    ((extrair_preco_e_nome (Resultado.found p tn)).1 =
       spec_extract_price of ∧
     (extrair_preco_e_nome (Resultado.found p tn)).2 =
       some (extrair_nome p)) ∧
    (extrair_preco_e_nome (Resultado.found prodC7 "ctx")).1 =
      some (159 / 10) := by
  refine ⟨?_, by norm_num [extrair_preco_e_nome, prodC7, ofertaC7, pyOr,
    round2, extrair_nome]⟩
  obtain ⟨restI, hI⟩ : ∃ t, p.items = it :: t := by
    cases hc : p.items with
    | nil => rw [hc] at h1; simp at h1
    | cons a t => rw [hc] at h1; simp at h1; exact ⟨t, by rw [h1]⟩
  obtain ⟨restS, hS⟩ : ∃ t, it.sellers = sl :: t := by
    cases hc : it.sellers with
    | nil => rw [hc] at h2; simp at h2
    | cons a t => rw [hc] at h2; simp at h2; exact ⟨t, by rw [h2]⟩
  simp only [extrair_preco_e_nome, hI, hS, h3, spec_extract_price]
  constructor
  · split
    · rename_i q hq
      by_cases h0 : 0 < q <;> simp [h0]
    · simp
  · split
    · rename_i q hq
      by_cases h0 : 0 < q <;> simp [h0]
    · simp

/-- Witness for C7: the cascade theorem applied to the concrete record
`prodC7` around the offer `price = 0`, `listPrice = 15.90`. -/
theorem c7_witness :
    (extrair_preco_e_nome (Resultado.found prodC7 "ctx")).1 =
      spec_extract_price ofertaC7 :=
  ((c7_cascata_precos prodC7 "ctx" ⟨some "222", [], [], [⟨some ofertaC7⟩]⟩
      ⟨some ofertaC7⟩ ofertaC7 rfl rfl rfl).1).1

/-- Claim C6: when a tracked product has no previously stored current
price, a successful price read (the extraction produced a truthy price)
sets the variation field to `None`, not `0.0` — while the price is stored
and the status becomes `Monitorando`. -/
theorem c6_variacao_primeira (rpe : String → Option Resultado) (now : String)
    (p : Produto) (r : Resultado) (np : ℚ)
    (h1 : rpe p.ean = some r)
    (h2 : resIsNotFound r = false)
    (h3 : (extrair_preco_e_nome r).1 = some np)
    (h4 : np ≠ 0)
    (h5 : p.preco_atual = none) :
    (atualizar_um_produto rpe now p).variacao = none ∧
    (atualizar_um_produto rpe now p).status = "Monitorando" ∧
    (atualizar_um_produto rpe now p).preco_atual = some np := by
  by_cases hn : truthyStr (extrair_preco_e_nome r).2 <;>
    simp [atualizar_um_produto, h1, h2, h3, h4, h5, hn, truthyNum]

/-- Witness for C6: the first observed price of `produtoNovo` (price 10
via `prodC6`) leaves the variation undefined. -/
theorem c6_witness :
    (atualizar_um_produto (fun _ => some (Resultado.found prodC6 "t"))
      "2026-01-01" produtoNovo).variacao = none :=
  (c6_variacao_primeira (fun _ => some (Resultado.found prodC6 "t"))
    "2026-01-01" produtoNovo (Resultado.found prodC6 "t") 10 rfl rfl
    (by
      norm_num [extrair_preco_e_nome, prodC6, pyOr, round2, extrair_nome]
      rw [if_neg (by simp)]
      norm_num)
    (by norm_num) rfl).1

/-- Claim C4: a resolved record is joined back to a tracked product only
through the first truthy `ean` of its sub-items; a record whose sub-items
all lack a truthy `ean` (such as an image-URL-fallback match) is filed
under no key, so the corresponding tracked product is marked
`Não Encontrado` with the current timestamp and its name, prices,
variation and history are left unchanged, even though resolution produced
a record. -/
theorem c4_join_por_item_ean (rs : List Resultado) (p : Produto)
    (now : String) (prod : Product) (tn : String)
    (h1 : Resultado.found prod tn ∈ rs)
    (h2 : ∀ it ∈ prod.items, truthyStr it.ean = false)
    (h3 : ∀ r' ∈ rs, chave_resultado r' ≠ some p.ean) :
    chave_resultado (Resultado.found prod tn) = none ∧
    (atualizar_um_produto (resultados_por_ean rs) now p).status =
      "Não Encontrado" ∧
    (atualizar_um_produto (resultados_por_ean rs) now p).ultima_verificacao =
      some now ∧
    (atualizar_um_produto (resultados_por_ean rs) now p).preco_atual =
      p.preco_atual ∧
    (atualizar_um_produto (resultados_por_ean rs) now p).preco_anterior =
      p.preco_anterior ∧
    (atualizar_um_produto (resultados_por_ean rs) now p).variacao =
      p.variacao ∧
    (atualizar_um_produto (resultados_por_ean rs) now p).historico =
      p.historico ∧
    (atualizar_um_produto (resultados_por_ean rs) now p).nome = p.nome := by
  have hkey : chave_resultado (Resultado.found prod tn) = none := by
    simpa [chave_resultado] using firstItemEan_eq_none prod.items h2
  have hnone : resultados_por_ean rs p.ean = none :=
    resultados_por_ean_none rs p.ean h3
  refine ⟨hkey, ?_⟩
  simp [atualizar_um_produto, hnone]

/-- Witness for C4: a single resolved record whose only sub-item lacks an
`ean` leaves the tracked product `produtoC4` marked `Não Encontrado`
with its stored price untouched. -/
theorem c4_witness :
    (atualizar_um_produto
      (resultados_por_ean [Resultado.found prodC4 "Busca EAN: 777"])
      "2026-01-01" produtoC4).status = "Não Encontrado" ∧
    (atualizar_um_produto
      (resultados_por_ean [Resultado.found prodC4 "Busca EAN: 777"])
      "2026-01-01" produtoC4).preco_atual = produtoC4.preco_atual := by
  have h := c4_join_por_item_ean [Resultado.found prodC4 "Busca EAN: 777"]
    produtoC4 "2026-01-01" prodC4 "Busca EAN: 777"
    (by simp) (by decide) (by decide)
  exact ⟨h.2.1, h.2.2.2.1⟩

/-! ### Helper lemmas about the batch machinery -/

/-- Results accumulated by one chunk land in the output of
`process_eans_in_batch`. -/
theorem mem_process_eans_in_batch (o : Oracle) (eans : List String)
    (b : List String) (hb : b ∈ chunksOf eans) (r : Resultado)
    (hr : r ∈ (process_one_batch o b).1) :
    r ∈ (process_eans_in_batch o eans).1 := by
  unfold process_eans_in_batch
  exact List.mem_flatten.mpr
    ⟨(process_one_batch o b).1,
     List.mem_map_of_mem (fun b => (process_one_batch o b).1) hb, hr⟩

/-- Enriching a single summary whose detail lookup fails yields no
result, only the detail request. -/
theorem enrich_single_fail (o : Oracle) (ps : Product) (ctx : String)
    (ht : truthyStr ps.productId = true)
    (hd : o.detail ps.productId = none) :
    enrich_product_summaries o [ps] ctx = ([], [Req.detail ps.productId]) := by
  simp [enrich_product_summaries, enrich_step, fetch_product_details, ht, hd]

/-- Each step of the per-EAN batch loop only appends to the accumulated
results. -/
theorem batch_step_results_grow (o : Oracle) (m : StrMap) (acc : BatchAcc)
    (e : String) :
    ∃ s, (batch_step o m acc e).results = acc.results ++ s := by
  unfold batch_step
  split
  · split
    · dsimp only
      split
      · exact ⟨_, rfl⟩
      · exact ⟨_, rfl⟩
    · exact ⟨[], by simp⟩
  · exact ⟨[], by simp⟩

/-- The per-EAN batch loop never removes an accumulated result. -/
theorem batch_fold_results_mono (o : Oracle) (m : StrMap)
    (l : List String) :
    ∀ (acc : BatchAcc) (v : Resultado), v ∈ acc.results →
      v ∈ (l.foldl (batch_step o m) acc).results := by
  induction l with
  | nil => intro acc v hv; simpa using hv
  | cons e rest ih =>
    intro acc v hv
    refine ih (batch_step o m acc e) v ?_
    obtain ⟨s, hs⟩ := batch_step_results_grow o m acc e
    rw [hs]
    exact List.mem_append_left s hv

/-- If an EAN of the batch is mapped to a summary with a truthy id whose
enrichment comes back empty, the per-EAN loop appends the summary itself
with the context label. -/
theorem batch_fold_keeps_summary (o : Oracle) (m : StrMap)
    (l : List String) (ean : String) (ps : Product)
    (hm : m ean = some ps)
    (ht : truthyStr ps.productId = true)
    (he : (enrich_product_summaries o [ps] ("Busca EAN: " ++ ean)).1 = []) :
    ∀ acc : BatchAcc, ean ∈ l →
      Resultado.found ps ("Busca EAN: " ++ ean) ∈
        (l.foldl (batch_step o m) acc).results := by
  induction l with
  | nil => intro acc h; simp at h
  | cons e rest ih =>
    intro acc h
    rcases List.mem_cons.mp h with h | h
    · subst h
      refine batch_fold_results_mono o m rest (batch_step o m acc ean) _ ?_
      unfold batch_step
      rw [hm]
      simp [ht, he]
    · exact ih (batch_step o m acc e) h

/-! ### Claims about the batch resolver's error handling -/

/-- Claim C5: when the bulk request of a batch fails at the transport
level, the processing of that batch issues exactly the one bulk request
(no individual fallback for any of its codes) and yields precisely the
not-found markers of all its codes; every such marker reaches the output
of `process_eans_in_batch`, and the results of every other batch reach
the output as well (the run is not aborted). -/
theorem c5_falha_lote (o : Oracle) (eans : List String) (b : List String)
    (hb : b ∈ chunksOf eans)
    (hfail : o.proxy (joinComma b) = none) :
    process_one_batch o b = (b.map Resultado.notFound, [Req.bulk b]) ∧
    (∀ e ∈ b, Resultado.notFound e ∈ (process_eans_in_batch o eans).1) ∧
    (∀ b' ∈ chunksOf eans, ∀ r ∈ (process_one_batch o b').1,
      r ∈ (process_eans_in_batch o eans).1) := by
  have h1 : process_one_batch o b = (b.map Resultado.notFound, [Req.bulk b]) := by
    simp [process_one_batch, hfail]
  refine ⟨h1, ?_, ?_⟩
  · intro e he
    refine mem_process_eans_in_batch o eans b hb _ ?_
    rw [h1]
    exact List.mem_map_of_mem Resultado.notFound he
  · intro b' hb' r hr
    exact mem_process_eans_in_batch o eans b' hb' r hr

/-- Witness for C5: with an oracle that fails every request, both codes
of the one batch are marked not found in the final output. -/
theorem c5_witness :
    Resultado.notFound "1111111111111" ∈
      (process_eans_in_batch oracleFail
        ["1111111111111", "2222222222222"]).1 :=
  ((c5_falha_lote oracleFail ["1111111111111", "2222222222222"]
      ["1111111111111", "2222222222222"] (by decide) rfl).2.1)
    "1111111111111" (by decide)

/-- Claim C3, counterexample: on the individual-search path a matched
summary (`prodC3`, matched for code `"55"`) whose detail lookup fails is
not returned with the context label — the pipeline emits a not-found
marker instead, dropping the weak match. -/
theorem c3_counterexample :
    (process_short_codes_individually oracleC3 ["55"]).1 =
      [Resultado.notFound "55"] ∧
    Resultado.found prodC3 "Busca Código: 55" ∉
      (process_short_codes_individually oracleC3 ["55"]).1 := by
  constructor <;> decide

/-- Claim C3 (amended): for a matched catalog summary whose detail
lookup fails (transport/decode failure), (i) the batch path keeps the
original summary in the results with the search-context label attached;
(ii) the individual-search path instead emits a not-found marker for the
code, dropping the summary; and (iii) the enricher function itself
returns no result for that summary — the batch path's caller is what
restores it. -/
theorem c3_falha_detalhe (o : Oracle) (batch : List String)
    (page : List Product) (ean : String) (ps : Product) (code : String)
    (page2 : List Product) (p2 : Product) :
    (o.proxy (joinComma batch) = some page →
     ean ∈ batch →
     build_found_map batch page ean = some ps →
     truthyStr ps.productId = true →
     o.detail ps.productId = none →
     Resultado.found ps ("Busca EAN: " ++ ean) ∈
       (process_one_batch o batch).1) ∧
    (o.proxy code = some page2 →
     page2.find? (fun p => p.items.any (item_matches_code code)) = some p2 →
     o.detail p2.productId = none →
     (process_one_short o code).1 = [Resultado.notFound code]) ∧
    (truthyStr ps.productId = true → o.detail ps.productId = none →
     (enrich_product_summaries o [ps] ("Busca EAN: " ++ ean)).1 = []) := by
  refine ⟨?_, ?_, ?_⟩
  · intro hpage hean hmap ht hd
    unfold process_one_batch
    rw [hpage]
    simp only []
    refine List.mem_append_left _ ?_
    exact batch_fold_keeps_summary o (build_found_map batch page) batch ean ps
      hmap ht (by rw [enrich_single_fail o ps _ ht hd]) ⟨[], [], []⟩ hean
  · intro hpage hfind hd
    simp [process_one_short, hpage, hfind, fetch_product_details, hd]
  · intro ht hd
    rw [enrich_single_fail o ps _ ht hd]

/-- Witness for C3: the batch path keeps `prodB` with its label when its
detail lookup fails, and the individual path turns the matched `prodC3`
into a not-found marker when its detail lookup fails. -/
theorem c3_witness :
    Resultado.found prodB "Busca EAN: 1234567890123" ∈
      (process_one_batch oracleB ["1234567890123"]).1 ∧
    (process_one_short oracleC3 "55").1 = [Resultado.notFound "55"] := by
  constructor
  · exact (c3_falha_detalhe oracleB ["1234567890123"] [prodB]
      "1234567890123" prodB "55" [prodC3] prodC3).1 rfl (by decide)
      (by decide) (by decide) rfl
  · exact (c3_falha_detalhe oracleC3 ["1234567890123"] [prodB]
      "1234567890123" prodB "55" [prodC3] prodC3).2.1 rfl (by decide) rfl

/-! ### Chunking lemmas -/

/-- Every chunk of `chunksOf l` is made of elements of `l`. -/
theorem chunksOf_subset (l : List String) (b : List String)
    (hb : b ∈ chunksOf l) : ∀ x ∈ b, x ∈ l := by
  unfold chunksOf at hb
  obtain ⟨i, _, hib⟩ := List.mem_map.mp hb
  intro x hx
  rw [← hib] at hx
  exact List.drop_subset _ _ (List.take_subset _ _ hx)

/-- Every element of `l` belongs to some chunk of `chunksOf l`. -/
theorem chunksOf_complete (l : List String) (x : String) (hx : x ∈ l) :
    ∃ b ∈ chunksOf l, x ∈ b := by
  obtain ⟨k, hk, hget⟩ := List.getElem_of_mem hx
  refine ⟨(l.drop (BATCH_SIZE * (k / BATCH_SIZE))).take BATCH_SIZE, ?_, ?_⟩
  · unfold chunksOf
    refine List.mem_map.mpr ⟨k / BATCH_SIZE, ?_, rfl⟩
    refine List.mem_range.mpr ?_
    unfold BATCH_SIZE
    omega
  · have hlt : k % BATCH_SIZE <
        ((l.drop (BATCH_SIZE * (k / BATCH_SIZE))).take BATCH_SIZE).length := by
      rw [List.length_take, List.length_drop]
      unfold BATCH_SIZE
      omega
    have hx2 : ((l.drop (BATCH_SIZE * (k / BATCH_SIZE))).take
        BATCH_SIZE).get ⟨k % BATCH_SIZE, hlt⟩ = x := by
      rw [List.get_eq_getElem, List.getElem_take, List.getElem_drop, ← hget]
      congr 1
      exact Nat.div_add_mod k BATCH_SIZE
    rw [← hx2]
    exact List.get_mem _ _ _

/-! ### Trace-shape lemmas -/

/-- The enrichment loop only ever issues detail requests. -/
theorem enrich_trace_detail (o : Oracle) (tn : String) (s : List Product) :
    ∀ acc : List Resultado × List Req,
      (∀ r ∈ acc.2, ∃ pid, r = Req.detail pid) →
      ∀ r ∈ (s.foldl (enrich_step o tn) acc).2, ∃ pid, r = Req.detail pid := by
  induction s with
  | nil => intro acc hacc; simpa using hacc
  | cons x rest ih =>
    intro acc hacc
    refine ih (enrich_step o tn acc x) ?_
    intro r hr
    unfold enrich_step fetch_product_details at hr
    split at hr
    · dsimp only at hr
      split at hr <;>
        rcases List.mem_append.mp hr with h | h
      · exact hacc r h
      · exact ⟨_, List.mem_singleton.mp h⟩
      · exact hacc r h
      · exact ⟨_, List.mem_singleton.mp h⟩
    · exact hacc r hr

/-- Each step of the per-EAN batch loop appends only detail requests to
the trace. -/
theorem batch_step_trace (o : Oracle) (m : StrMap) (acc : BatchAcc)
    (e : String) :
    ∃ t, (batch_step o m acc e).trace = acc.trace ++ t ∧
      ∀ r ∈ t, ∃ pid, r = Req.detail pid := by
  unfold batch_step
  split
  · split
    · dsimp only
      split
      · refine ⟨_, rfl, ?_⟩
        intro r hr
        exact enrich_trace_detail o _ _ ([], []) (by simp) r hr
      · refine ⟨_, rfl, ?_⟩
        intro r hr
        exact enrich_trace_detail o _ _ ([], []) (by simp) r hr
    · exact ⟨[], by simp, by simp⟩
  · exact ⟨[], by simp, by simp⟩

/-- The per-EAN batch loop only ever appends detail requests to the
trace. -/
theorem batch_fold_trace_detail (o : Oracle) (m : StrMap)
    (l : List String) :
    ∀ acc : BatchAcc,
      (∀ r ∈ acc.trace, ∃ pid, r = Req.detail pid) →
      ∀ r ∈ (l.foldl (batch_step o m) acc).trace, ∃ pid, r = Req.detail pid := by
  induction l with
  | nil => intro acc hacc; simpa using hacc
  | cons e rest ih =>
    intro acc hacc
    refine ih (batch_step o m acc e) ?_
    obtain ⟨t, ht, hdet⟩ := batch_step_trace o m acc e
    rw [ht]
    intro r hr
    rcases List.mem_append.mp hr with h | h
    · exact hacc r h
    · exact hdet r h

/-- Each step of the per-EAN batch loop either keeps
`eans_not_found_in_batch` or appends the current EAN to it. -/
theorem batch_step_nf (o : Oracle) (m : StrMap) (acc : BatchAcc)
    (e : String) :
    (batch_step o m acc e).nf = acc.nf ∨
    (batch_step o m acc e).nf = acc.nf ++ [e] := by
  unfold batch_step
  split
  · split
    · dsimp only
      split
      · exact Or.inl rfl
      · exact Or.inl rfl
    · exact Or.inr rfl
  · exact Or.inr rfl

/-- Every EAN in the accumulated `eans_not_found_in_batch` comes from the
initial accumulator or from the batch itself. -/
theorem batch_fold_nf_subset (o : Oracle) (m : StrMap) (l : List String) :
    ∀ (acc : BatchAcc) (e : String),
      e ∈ (l.foldl (batch_step o m) acc).nf → e ∈ acc.nf ∨ e ∈ l := by
  induction l with
  | nil => intro acc e he; exact Or.inl (by simpa using he)
  | cons x rest ih =>
    intro acc e he
    rcases ih (batch_step o m acc x) e he with h | h
    · rcases batch_step_nf o m acc x with hnf | hnf
      · rw [hnf] at h
        exact Or.inl h
      · rw [hnf] at h
        rcases List.mem_append.mp h with h | h
        · exact Or.inl h
        · exact Or.inr (by simp [List.mem_singleton.mp h])
    · exact Or.inr (List.mem_cons_of_mem x h)

/-- The trace of one individual-code search starts with the individual
request for that code, followed only by detail requests. -/
theorem process_one_short_trace (o : Oracle) (c : String) :
    ∃ t, (process_one_short o c).2 = Req.individual c :: t ∧
      ∀ r ∈ t, ∃ pid, r = Req.detail pid := by
  unfold process_one_short
  split
  · exact ⟨[], rfl, by simp⟩
  · split
    · exact ⟨[], rfl, by simp⟩
    · dsimp only [fetch_product_details]
      split
      · exact ⟨_, rfl, by simp⟩
      · exact ⟨_, rfl, by simp⟩

/-- Every request issued by the individual-search loop is the individual
request of one of its codes or a detail request. -/
theorem short_trace_entries (o : Oracle) (codes : List String) (r : Req)
    (hr : r ∈ (process_short_codes_individually o codes).2) :
    (∃ c ∈ codes, r = Req.individual c) ∨ ∃ pid, r = Req.detail pid := by
  unfold process_short_codes_individually at hr
  obtain ⟨t, htm, hrt⟩ := List.mem_flatten.mp hr
  obtain ⟨c, hc, hct⟩ := List.mem_map.mp htm
  obtain ⟨t', ht', hdet⟩ := process_one_short_trace o c
  rw [← hct, ht'] at hrt
  rcases List.mem_cons.mp hrt with h | h
  · exact Or.inl ⟨c, hc, h⟩
  · exact Or.inr (hdet r h)

/-- The individual-search loop issues the individual request of each of
its codes. -/
theorem short_trace_has_individual (o : Oracle) (codes : List String)
    (c : String) (hc : c ∈ codes) :
    Req.individual c ∈ (process_short_codes_individually o codes).2 := by
  unfold process_short_codes_individually
  obtain ⟨t', ht', _⟩ := process_one_short_trace o c
  refine List.mem_flatten.mpr ⟨(process_one_short o c).2,
    List.mem_map_of_mem (fun c => (process_one_short o c).2) hc, ?_⟩
  rw [ht']
  exact List.mem_cons_self _ _

/-- One individual-code search always produces exactly one result: the
not-found marker of the code or a found record labelled with the code. -/
theorem process_one_short_result (o : Oracle) (c : String) :
    (process_one_short o c).1 = [Resultado.notFound c] ∨
    ∃ p, (process_one_short o c).1 =
      [Resultado.found p ("Busca Código: " ++ c)] := by
  unfold process_one_short
  split
  · exact Or.inl rfl
  · split
    · exact Or.inl rfl
    · dsimp only [fetch_product_details]
      split
      · exact Or.inr ⟨_, rfl⟩
      · exact Or.inl rfl

/-- Each code given to the individual-search loop is represented in its
results. -/
theorem short_result_mem (o : Oracle) (codes : List String) (c : String)
    (hc : c ∈ codes) :
    Resultado.notFound c ∈ (process_short_codes_individually o codes).1 ∨
    ∃ p, Resultado.found p ("Busca Código: " ++ c) ∈
      (process_short_codes_individually o codes).1 := by
  have hsub : ∀ v ∈ (process_one_short o c).1,
      v ∈ (process_short_codes_individually o codes).1 := by
    intro v hv
    unfold process_short_codes_individually
    exact List.mem_flatten.mpr ⟨(process_one_short o c).1,
      List.mem_map_of_mem (fun c => (process_one_short o c).1) hc, hv⟩
  rcases process_one_short_result o c with h | ⟨p, h⟩
  · exact Or.inl (hsub _ (by rw [h]; exact List.mem_singleton.mpr rfl))
  · exact Or.inr ⟨p, hsub _ (by rw [h]; exact List.mem_singleton.mpr rfl)⟩

/-- The trace of one batch starts with its bulk request; the rest
contains individual requests only for codes of the batch, and no further
bulk request. -/
theorem process_one_batch_trace (o : Oracle) (b : List String) :
    ∃ t, (process_one_batch o b).2 = Req.bulk b :: t ∧
      (∀ c, Req.individual c ∈ t → c ∈ b) ∧
      ∀ b', Req.bulk b' ∉ t := by
  unfold process_one_batch
  split
  · exact ⟨[], rfl, by simp, by simp⟩
  · refine ⟨_, rfl, ?_, ?_⟩
    · intro c hc
      rcases List.mem_append.mp hc with h | h
      · obtain ⟨pid, hpid⟩ := batch_fold_trace_detail o _ b ⟨[], [], []⟩
          (by simp) _ h
        exact absurd hpid (by simp)
      · rcases short_trace_entries o _ _ h with ⟨cc, hcc, heq⟩ | ⟨pid, hpid⟩
        · have hceq : c = cc := by simpa using heq
          subst hceq
          rcases batch_fold_nf_subset o _ b ⟨[], [], []⟩ c hcc with h0 | h0
          · exact absurd h0 (by simp)
          · exact h0
        · exact absurd hpid (by simp)
    · intro b' hb'
      rcases List.mem_append.mp hb' with h | h
      · obtain ⟨pid, hpid⟩ := batch_fold_trace_detail o _ b ⟨[], [], []⟩
          (by simp) _ h
        exact absurd hpid (by simp)
      · rcases short_trace_entries o _ _ h with ⟨c', _, heq⟩ | ⟨pid, hpid⟩
        · exact absurd heq (by simp)
        · exact absurd hpid (by simp)

/-- The bulk request of every chunk appears in the batch-processing
trace. -/
theorem batches_trace_bulk_mem (o : Oracle) (eans : List String)
    (b : List String) (hb : b ∈ chunksOf eans) :
    Req.bulk b ∈ (process_eans_in_batch o eans).2 := by
  unfold process_eans_in_batch
  obtain ⟨t, ht, _, _⟩ := process_one_batch_trace o b
  refine List.mem_flatten.mpr ⟨(process_one_batch o b).2,
    List.mem_map_of_mem (fun b => (process_one_batch o b).2) hb, ?_⟩
  rw [ht]
  exact List.mem_cons_self _ _

/-- Conversely, every bulk request in the batch-processing trace is the
bulk request of one of the chunks. -/
theorem batches_trace_bulk_only (o : Oracle) (eans : List String)
    (b' : List String)
    (hb' : Req.bulk b' ∈ (process_eans_in_batch o eans).2) :
    b' ∈ chunksOf eans := by
  unfold process_eans_in_batch at hb'
  obtain ⟨t, htm, hrt⟩ := List.mem_flatten.mp hb'
  obtain ⟨bb, hbb, hbt⟩ := List.mem_map.mp htm
  obtain ⟨t', ht', _, hnob⟩ := process_one_batch_trace o bb
  rw [← hbt, ht'] at hrt
  rcases List.mem_cons.mp hrt with h | h
  · have hbeq : b' = bb := by simpa using h
    rw [hbeq]
    exact hbb
  · exact absurd h (hnob b')

/-- In a concatenation of per-batch traces (each headed by its bulk
request, with individual requests only for codes of that batch), every
individual request is preceded by a bulk request carrying its code. -/
theorem flatten_bulk_before_individual (L : List (List Req))
    (hL : ∀ t ∈ L, ∃ b rest, t = Req.bulk b :: rest ∧
      ∀ c, Req.individual c ∈ rest → c ∈ b) :
    ∀ (c : String) (pre post : List Req),
      L.flatten = pre ++ Req.individual c :: post →
      ∃ b, Req.bulk b ∈ pre ∧ c ∈ b := by
  induction L with
  | nil =>
    intro c pre post h
    simp only [List.flatten_nil] at h
    exact absurd h.symm (List.append_ne_nil_of_right_ne_nil pre (by simp))
  | cons l L' ih =>
    intro c pre post h
    obtain ⟨b, rest, rfl, hind⟩ := hL l (List.mem_cons_self l L')
    have hL' : ∀ t ∈ L', ∃ b rest, t = Req.bulk b :: rest ∧
        ∀ c, Req.individual c ∈ rest → c ∈ b :=
      fun t ht => hL t (List.mem_cons_of_mem _ ht)
    rw [List.flatten_cons] at h
    cases pre with
    | nil =>
      rw [List.nil_append] at h
      have : Req.bulk b = Req.individual c := by
        have := congrArg (fun l => l.head?) h
        simpa using this
      exact absurd this (by simp)
    | cons p pre' =>
      rw [List.cons_append, List.cons_append] at h
      have hp : p = Req.bulk b := by
        have := congrArg (fun l => l.head?) h
        simpa using this.symm
      have htail : rest ++ L'.flatten = pre' ++ Req.individual c :: post := by
        have := congrArg (fun l => l.tail) h
        simpa using this
      rcases List.append_eq_append_iff.mp htail with ⟨a', ha1, ha2⟩ | ⟨c', hc1, hc2⟩
      · obtain ⟨b2, hb2, hcb2⟩ := ih hL' c a' post ha2
        refine ⟨b2, ?_, hcb2⟩
        rw [ha1]
        exact List.mem_cons_of_mem p (List.mem_append_right rest hb2)
      · cases c' with
        | nil =>
          rw [List.nil_append] at hc2
          obtain ⟨b2, hb2, hcb2⟩ := ih hL' c [] post (by rw [← hc2]; rfl)
          exact absurd hb2 (by simp)
        | cons x c'' =>
          have hx : Req.individual c = x := by
            have := congrArg (fun l => l.head?) hc2
            simpa using this
          have hmem : Req.individual c ∈ rest := by
            rw [hc1, hx]
            exact List.mem_append_right pre' (List.mem_cons_self x c'')
          refine ⟨b, ?_, hind c hmem⟩
          rw [hp]
          exact List.mem_cons_self _ _

/-- Restricting the input to codes of length at most 13 changes neither
of the two partitions used by `scrape_by_eans`. -/
theorem filter_le13_eq (eans : List String) :
    (eans.filter (fun e => e.length ≤ 13)).filter (fun e => e.length = 13) =
      eans.filter (fun e => e.length = 13) ∧
    (eans.filter (fun e => e.length ≤ 13)).filter (fun e => e.length < 13) =
      eans.filter (fun e => e.length < 13) := by
  constructor
  · rw [List.filter_filter]
    refine List.filter_congr (fun a _ => ?_)
    by_cases h : a.length = 13 <;> simp [h] <;> omega
  · rw [List.filter_filter]
    refine List.filter_congr (fun a _ => ?_)
    by_cases h : a.length < 13 <;> simp [h] <;> omega

/-- Claim C1, counterexample: an input code of length 14 falls in neither
partition of `scrape_by_eans`: no request is issued for it and it is
absent from the results, contradicting "every code of any other length
is still searched individually and appears in the result". -/
theorem c1_counterexample :
    scrape_by_eans oracleEmpty ["12345678901234"] = ([], []) := by decide

/-- Claim C1 (amended): every code of length exactly 13 is submitted to
bulk search (it lies in some bulk batch of the trace) and any individual
search for it is preceded in the trace by a bulk request carrying it;
every code of length strictly below 13 is searched individually and never
appears in a bulk batch, and is represented in the results; codes of any
other length (14 or more) are dropped: the run is identical to the run on
the input restricted to codes of length at most 13. -/
theorem c1_particao (o : Oracle) (eans : List String) :
    scrape_by_eans o eans =
      scrape_by_eans o (eans.filter (fun e => e.length ≤ 13)) ∧
    (∀ c ∈ eans, c.length = 13 →
      ∃ b, Req.bulk b ∈ (scrape_by_eans o eans).2 ∧ c ∈ b) ∧
    (∀ (c : String) (pre post : List Req), c.length = 13 →
      (scrape_by_eans o eans).2 = pre ++ Req.individual c :: post →
      ∃ b, Req.bulk b ∈ pre ∧ c ∈ b) ∧
    (∀ c ∈ eans, c.length < 13 →
      Req.individual c ∈ (scrape_by_eans o eans).2 ∧
      ∀ b, Req.bulk b ∈ (scrape_by_eans o eans).2 → c ∉ b) ∧
    (∀ c ∈ eans, c.length < 13 →
      Resultado.notFound c ∈ (scrape_by_eans o eans).1 ∨
      ∃ p, Resultado.found p ("Busca Código: " ++ c) ∈
        (scrape_by_eans o eans).1) := by
  have hvalid_len : ∀ x ∈ eans.filter (fun e => e.length = 13),
      x.length = 13 := by
    intro x hx
    simpa using (List.mem_filter.mp hx).2
  have hshort_len : ∀ x ∈ eans.filter (fun e => e.length < 13),
      x.length < 13 := by
    intro x hx
    simpa using (List.mem_filter.mp hx).2
  have htr : (scrape_by_eans o eans).2 =
      (process_eans_in_batch o (eans.filter (fun e => e.length = 13))).2 ++
      (process_short_codes_individually o
        (eans.filter (fun e => e.length < 13))).2 := rfl
  have hres : (scrape_by_eans o eans).1 =
      (process_eans_in_batch o (eans.filter (fun e => e.length = 13))).1 ++
      (process_short_codes_individually o
        (eans.filter (fun e => e.length < 13))).1 := rfl
  refine ⟨?_, ?_, ?_, ?_, ?_⟩
  · simp only [scrape_by_eans]
    rw [(filter_le13_eq eans).1, (filter_le13_eq eans).2]
  · intro c hc hlen
    have hcv : c ∈ eans.filter (fun e => e.length = 13) :=
      List.mem_filter.mpr ⟨hc, by simpa using hlen⟩
    obtain ⟨b, hb, hcb⟩ := chunksOf_complete _ c hcv
    refine ⟨b, ?_, hcb⟩
    rw [htr]
    exact List.mem_append_left _ (batches_trace_bulk_mem o _ b hb)
  · intro c pre post hlen heq
    rw [htr] at heq
    rcases List.append_eq_append_iff.mp heq with ⟨a', ha1, ha2⟩ | ⟨c', hc1, hc2⟩
    · have hmem : Req.individual c ∈ (process_short_codes_individually o
          (eans.filter (fun e => e.length < 13))).2 := by
        rw [ha2]
        exact List.mem_append_right a' (List.mem_cons_self _ _)
      rcases short_trace_entries o _ _ hmem with ⟨cc, hcc, hceq⟩ | ⟨pid, hpid⟩
      · have hccc : c = cc := by simpa using hceq
        subst hccc
        have := hshort_len c hcc
        omega
      · exact absurd hpid (by simp)
    · cases c' with
      | nil =>
        rw [List.nil_append] at hc2
        have hmem : Req.individual c ∈ (process_short_codes_individually o
            (eans.filter (fun e => e.length < 13))).2 := by
          rw [← hc2]
          exact List.mem_cons_self _ _
        rcases short_trace_entries o _ _ hmem with ⟨cc, hcc, hceq⟩ | ⟨pid, hpid⟩
        · have hccc : c = cc := by simpa using hceq
          subst hccc
          have := hshort_len c hcc
          omega
        · exact absurd hpid (by simp)
      | cons x c'' =>
        have hx : Req.individual c = x := by
          have := congrArg (fun l => l.head?) hc2
          simpa using this
        have hbt : ((chunksOf (eans.filter (fun e => e.length = 13))).map
            (fun b => (process_one_batch o b).2)).flatten =
            pre ++ Req.individual c :: c'' := by
          have hbt0 : (process_eans_in_batch o
              (eans.filter (fun e => e.length = 13))).2 =
              pre ++ Req.individual c :: c'' := by
            rw [hc1, hx]
          rw [← hbt0]
          rfl
        refine flatten_bulk_before_individual _ ?_ c pre c'' hbt
        intro t ht
        obtain ⟨bb, hbb, hbt2⟩ := List.mem_map.mp ht
        obtain ⟨t', ht', hind, _⟩ := process_one_batch_trace o bb
        exact ⟨bb, t', by rw [← hbt2, ht'], hind⟩
  · intro c hc hlen
    have hcs : c ∈ eans.filter (fun e => e.length < 13) :=
      List.mem_filter.mpr ⟨hc, by simpa using hlen⟩
    constructor
    · rw [htr]
      exact List.mem_append_right _ (short_trace_has_individual o _ c hcs)
    · intro b hb hcb
      rw [htr] at hb
      rcases List.mem_append.mp hb with h | h
      · have hbv : b ∈ chunksOf (eans.filter (fun e => e.length = 13)) :=
          batches_trace_bulk_only o _ b h
        have hcv : c ∈ eans.filter (fun e => e.length = 13) :=
          chunksOf_subset _ b hbv c hcb
        have := hvalid_len c hcv
        omega
      · rcases short_trace_entries o _ _ h with ⟨cc, _, hceq⟩ | ⟨pid, hpid⟩
        · exact absurd hceq (by simp)
        · exact absurd hpid (by simp)
  · intro c hc hlen
    have hcs : c ∈ eans.filter (fun e => e.length < 13) :=
      List.mem_filter.mpr ⟨hc, by simpa using hlen⟩
    rcases short_result_mem o _ c hcs with h | ⟨p, h⟩
    · refine Or.inl ?_
      rw [hres]
      exact List.mem_append_right _ h
    · refine Or.inr ⟨p, ?_⟩
      rw [hres]
      exact List.mem_append_right _ h

/-- Witness for C1: on input `["1234567890123", "55"]` with an oracle
that fails every request, the 13-digit code appears in a bulk batch of
the trace and the short code is searched individually. -/
theorem c1_witness :
    (∃ b, Req.bulk b ∈
        (scrape_by_eans oracleFail ["1234567890123", "55"]).2 ∧
      "1234567890123" ∈ b) ∧
    Req.individual "55" ∈
      (scrape_by_eans oracleFail ["1234567890123", "55"]).2 :=
  ⟨(c1_particao oracleFail ["1234567890123", "55"]).2.1 "1234567890123"
      (by decide) (by decide),
   ((c1_particao oracleFail ["1234567890123", "55"]).2.2.2.1 "55"
      (by decide) (by decide)).1⟩

end Pricing
